import Mathlib

/-!
Verification of the `vaonis_instruments_unified` client library.

This development shallowly embeds the authorization signer (`src/auth.js`),
the unified HTTP client (`src/unified_client.js`) and the socket command
channel into Lean, and proves the specified properties about the embedding.

Modelling conventions:
* JavaScript byte buffers are `List Nat` with every element `< 256`
  maintained by construction (all byte-producing operations end in `% 256`).
* Thrown exceptions become `Except Err` values; the `Err` inductive carries,
  per throw site, the data interpolated into the thrown `Error` message.
* Node's built-in SHA-512 (`crypto.createHash("sha512")`) and tweetnacl's
  Ed25519 signing are external libraries; they are embedded here by their
  standard definitions (FIPS 180-4 and the tweetnacl source, combined
  signed-message convention).
* Filesystem, environment and network are passed in as explicit functions;
  performed reads/fetches are returned as traces so that "no I/O happened"
  claims are statements about the trace.
-/

set_option maxHeartbeats 1000000

namespace Vaonis

/-! ## Byte-level utilities -/

/-- Little-endian byte decomposition, fixed width `n`. -/
def natToBytesLE (n : Nat) (x : Nat) : List Nat :=
  (List.range n).map (fun i => x / 256 ^ i % 256)

/-- Little-endian byte recomposition. -/
def bytesToNatLE (l : List Nat) : Nat :=
  l.foldr (fun b acc => acc * 256 + b) 0

/-- Big-endian byte decomposition, fixed width `count`. -/
def wordBE (count : Nat) (x : Nat) : List Nat :=
  (List.range count).map (fun i => x / 256 ^ (count - 1 - i) % 256)

/-- Big-endian byte recomposition (for 64-bit words of a SHA-512 block). -/
def bytesToWordBE (l : List Nat) : Nat :=
  l.foldl (fun acc b => acc * 256 + b) 0

theorem natToBytesLE_length (n x : Nat) : (natToBytesLE n x).length = n := by
  simp [natToBytesLE]

theorem wordBE_length (c x : Nat) : (wordBE c x).length = c := by
  simp [wordBE]

/-! ## String utilities (ASCII-level models of the JS string operations) -/

/-- JS `s[0]` on a nonempty string, as a one-character string. -/
def strTake1 (s : String) : String := String.mk (s.toList.take 1)

/-- JS `s.slice(1)`. -/
def strDrop1 (s : String) : String := String.mk (s.toList.drop 1)

/-- ASCII lower-casing of one character (the JS inputs here are ASCII). -/
def charLowerAscii (c : Char) : Char :=
  if 'A' ≤ c ∧ c ≤ 'Z' then Char.ofNat (c.toNat + 32) else c

/-- JS `s.toLowerCase()` restricted to ASCII. -/
def strLower (s : String) : String := String.mk (s.toList.map charLowerAscii)

/-- JS `s.startsWith(p)`. -/
def strStarts (s p : String) : Bool := p.toList.isPrefixOf s.toList

/-- JS `s.endsWith(p)`. -/
def strEnds (s p : String) : Bool := p.toList.isSuffixOf s.toList

/-- Does `l` contain `sub` as a contiguous sublist? -/
def hasSubList (sub : List Char) : List Char → Bool
  | [] => sub.isEmpty
  | c :: rest => sub.isPrefixOf (c :: rest) || hasSubList sub rest

/-- JS `s.includes(sub)`. -/
def strContains (hay sub : String) : Bool := hasSubList sub.toList hay.toList

/-- UTF-8 bytes of a string (JS `Buffer.from(s, "utf-8")`). -/
def utf8Bytes (s : String) : List Nat := s.toUTF8.toList.map (fun b => b.toNat)

/-- JS whitespace characters recognized by `String.prototype.trim`
(ASCII subset). -/
def isJsWs (c : Char) : Bool :=
  c = ' ' || c = '\t' || c = '\n' || c = '\r' || c.toNat = 11 || c.toNat = 12

/-- JS `s.trim()` (ASCII whitespace). -/
def strTrim (s : String) : String :=
  String.mk (((s.toList.dropWhile isJsWs).reverse.dropWhile isJsWs).reverse)

/-! ## Base64 (Node `Buffer` semantics: forgiving decoder, standard encoder)

Node's base64 decoder accepts both the standard and the url-safe alphabet and
silently skips any other character (including `=` padding); the encoder emits
the standard alphabet with padding. -/

/-- Value of one base64 character, `none` for characters the forgiving Node
decoder skips. -/
def b64IdxOf (c : Char) : Option Nat :=
  let n := c.toNat
  if 65 ≤ n ∧ n ≤ 90 then some (n - 65)
  else if 97 ≤ n ∧ n ≤ 122 then some (n - 71)
  else if 48 ≤ n ∧ n ≤ 57 then some (n + 4)
  else if c = '+' ∨ c = '-' then some 62
  else if c = '/' ∨ c = '_' then some 63
  else none

/-- Pack a stream of 6-bit groups into bytes, dropping a trailing partial
byte exactly as Node does. -/
def sextetsToBytes : List Nat → List Nat
  | a :: b :: c :: d :: rest =>
      (a * 4 + b / 16) :: (b % 16 * 16 + c / 4) :: (c % 4 * 64 + d) :: sextetsToBytes rest
  | [a, b, c] => [a * 4 + b / 16, b % 16 * 16 + c / 4]
  | [a, b] => [a * 4 + b / 16]
  | _ => []

/-- JS `Buffer.from(s, "base64")`. -/
def base64Decode (s : String) : List Nat :=
  sextetsToBytes (s.toList.filterMap b64IdxOf)

/-- The standard base64 alphabet. -/
def b64Alphabet : List Char :=
  "ABCDEFGHIJKLMNOPQRSTUVWXYZabcdefghijklmnopqrstuvwxyz0123456789+/".toList

/-- Character for a 6-bit value. -/
def b64Char (n : Nat) : Char := b64Alphabet.getD n 'A'

/-- Encode bytes as base64 characters with padding. -/
def bytesToB64 : List Nat → List Char
  | b0 :: b1 :: b2 :: rest =>
      b64Char (b0 / 4) :: b64Char (b0 % 4 * 16 + b1 / 16) ::
        b64Char (b1 % 16 * 4 + b2 / 64) :: b64Char (b2 % 64) :: bytesToB64 rest
  | [b0, b1] =>
      [b64Char (b0 / 4), b64Char (b0 % 4 * 16 + b1 / 16), b64Char (b1 % 16 * 4), '=']
  | [b0] => [b64Char (b0 / 4), b64Char (b0 % 4 * 16), '=', '=']
  | [] => []

/-- JS `buffer.toString("base64")`. -/
def base64Encode (bytes : List Nat) : String := String.mk (bytesToB64 bytes)

/-! ## SHA-512 (FIPS 180-4)

The round constants are the fractional parts of the cube roots of the first
80 primes and the initial state the fractional parts of the square roots of
the first 8 primes; both are computed here from those definitions via exact
integer roots, rather than transcribed. -/

/-- Bounded-fuel integer cube root by binary search on `[lo, hi)`. -/
def icbrtGo (x : Nat) : Nat → Nat → Nat → Nat
  | 0, lo, _ => lo
  | fuel + 1, lo, hi =>
      if hi ≤ lo + 1 then lo
      else
        let m := (lo + hi) / 2
        if m ^ 3 ≤ x then icbrtGo x fuel m hi else icbrtGo x fuel lo m

/-- Integer cube root (largest `r` with `r ^ 3 ≤ x`, for `x < 2 ^ 260`). -/
def icbrt (x : Nat) : Nat := icbrtGo x 300 0 (x + 1)

/-- Trial-division primality test, adequate for the small prime tables. -/
def natIsPrimeB (n : Nat) : Bool :=
  decide (2 ≤ n) && (List.range n).all (fun m => decide (m < 2) || decide (¬ n % m = 0))

/-- The first 80 primes (2 … 409). -/
def sha512Primes : List Nat := ((List.range 410).filter natIsPrimeB).take 80

/-- First 64 bits of the fractional part of the square root of `p`. -/
def sqrtFrac64 (p : Nat) : Nat := Nat.sqrt (p <<< 128) % 2 ^ 64

/-- First 64 bits of the fractional part of the cube root of `p`. -/
def cbrtFrac64 (p : Nat) : Nat := icbrt (p <<< 192) % 2 ^ 64

/-- The 80 SHA-512 round constants. -/
def sha512K : List Nat := sha512Primes.map cbrtFrac64

/-- The eight 64-bit chaining words of SHA-512. -/
structure Sha512State where
  a : Nat
  b : Nat
  c : Nat
  d : Nat
  e : Nat
  f : Nat
  g : Nat
  h : Nat

/-- Initial SHA-512 state. -/
def sha512H0 : Sha512State :=
  ⟨sqrtFrac64 2, sqrtFrac64 3, sqrtFrac64 5, sqrtFrac64 7,
   sqrtFrac64 11, sqrtFrac64 13, sqrtFrac64 17, sqrtFrac64 19⟩

/-- 64-bit rotate right. -/
def rotr64 (r x : Nat) : Nat := (x >>> r ||| x <<< (64 - r)) % 2 ^ 64

/-- 64-bit complement. -/
def not64 (x : Nat) : Nat := x ^^^ (2 ^ 64 - 1)

def sha512Ch (x y z : Nat) : Nat := x &&& y ^^^ (not64 x &&& z)

def sha512Maj (x y z : Nat) : Nat := x &&& y ^^^ (x &&& z) ^^^ (y &&& z)

def sha512BigSigma0 (x : Nat) : Nat := rotr64 28 x ^^^ rotr64 34 x ^^^ rotr64 39 x

def sha512BigSigma1 (x : Nat) : Nat := rotr64 14 x ^^^ rotr64 18 x ^^^ rotr64 41 x

def sha512SmallSigma0 (x : Nat) : Nat := rotr64 1 x ^^^ rotr64 8 x ^^^ (x >>> 7)

def sha512SmallSigma1 (x : Nat) : Nat := rotr64 19 x ^^^ rotr64 61 x ^^^ (x >>> 6)

/-- Extend the 16 message words of a block by `n` further schedule words. -/
def sha512Extend (w : List Nat) : Nat → List Nat
  | 0 => w
  | n + 1 =>
      let len := w.length
      let next :=
        (sha512SmallSigma1 (w.getD (len - 2) 0) + w.getD (len - 7) 0 +
          sha512SmallSigma0 (w.getD (len - 15) 0) + w.getD (len - 16) 0) % 2 ^ 64
      sha512Extend (w ++ [next]) n

/-- One SHA-512 round, consuming one `(constant, scheduleWord)` pair. -/
def sha512Round (s : Sha512State) (kw : Nat × Nat) : Sha512State :=
  let t1 := (s.h + sha512BigSigma1 s.e + sha512Ch s.e s.f s.g + kw.1 + kw.2) % 2 ^ 64
  let t2 := (sha512BigSigma0 s.a + sha512Maj s.a s.b s.c) % 2 ^ 64
  ⟨(t1 + t2) % 2 ^ 64, s.a, s.b, s.c, (s.d + t1) % 2 ^ 64, s.e, s.f, s.g⟩

/-- Split a byte list into 64-bit big-endian words. -/
def bytesToWords64 : List Nat → List Nat
  | b0 :: b1 :: b2 :: b3 :: b4 :: b5 :: b6 :: b7 :: rest =>
      bytesToWordBE [b0, b1, b2, b3, b4, b5, b6, b7] :: bytesToWords64 rest
  | _ => []

/-- Compress one 128-byte block into the state. -/
def sha512Compress (s : Sha512State) (block : List Nat) : Sha512State :=
  let w := sha512Extend (bytesToWords64 block) 64
  let t := (sha512K.zip w).foldl sha512Round s
  ⟨(s.a + t.a) % 2 ^ 64, (s.b + t.b) % 2 ^ 64, (s.c + t.c) % 2 ^ 64,
   (s.d + t.d) % 2 ^ 64, (s.e + t.e) % 2 ^ 64, (s.f + t.f) % 2 ^ 64,
   (s.g + t.g) % 2 ^ 64, (s.h + t.h) % 2 ^ 64⟩

/-- Split a padded message into 128-byte blocks (fuel-bounded). -/
def toBlocks : Nat → List Nat → List (List Nat)
  | 0, _ => []
  | _, [] => []
  | fuel + 1, l => l.take 128 :: toBlocks fuel (l.drop 128)

/-- SHA-512 padding: `0x80`, zeros, and the 128-bit big-endian bit length. -/
def sha512Pad (msg : List Nat) : List Nat :=
  let padLen := (128 - (msg.length + 17) % 128) % 128
  msg ++ [0x80] ++ List.replicate padLen 0 ++ wordBE 16 (8 * msg.length % 2 ^ 128)

/-- Serialize the final state as the 64 digest bytes. -/
def sha512StateBytes (s : Sha512State) : List Nat :=
  wordBE 8 s.a ++ wordBE 8 s.b ++ wordBE 8 s.c ++ wordBE 8 s.d ++
    wordBE 8 s.e ++ wordBE 8 s.f ++ wordBE 8 s.g ++ wordBE 8 s.h

/-- SHA-512 of a byte string. -/
def sha512 (msg : List Nat) : List Nat :=
  let padded := sha512Pad msg
  sha512StateBytes ((toBlocks (padded.length + 1) padded).foldl sha512Compress sha512H0)

theorem sha512_length (msg : List Nat) : (sha512 msg).length = 64 := by
  simp [sha512, sha512StateBytes, wordBE_length]

/-! ## Ed25519 signing (tweetnacl)

`nacl.sign(message, secretKey)` produces the *combined* signed message: the
64-byte signature (`R ‖ S`) followed by the message itself. `secretKey` is
the 64-byte `seed ‖ publicKey` form produced by `nacl.sign.keyPair.fromSeed`.
Embedded below from the tweetnacl source / RFC 8032 definitions. -/

/-- The field prime `2^255 - 19`. -/
def edP : Nat := 2 ^ 255 - 19

/-- The group order `2^252 + 27742317777372353535851937790883648493`. -/
def edL : Nat := 2 ^ 252 + 27742317777372353535851937790883648493

/-- Modular exponentiation by binary splitting. -/
def powMod (m b e : Nat) : Nat :=
  if h : e = 0 then 1 % m
  else
    let r := powMod m (b * b % m) (e / 2)
    if e % 2 = 1 then r * b % m else r
termination_by e
decreasing_by exact Nat.div_lt_self (Nat.pos_of_ne_zero h) (by omega)

/-- Inverse modulo `edP` (Fermat). -/
def edInv (x : Nat) : Nat := powMod edP x (edP - 2)

/-- The curve constant `d = -121665 / 121666 mod p`. -/
def edD : Nat := (edP - 121665) * edInv 121666 % edP

/-- `sqrt(-1) mod p`, i.e. `2^((p-1)/4)`. -/
def edSqrtM1 : Nat := powMod edP 2 ((edP - 1) / 4)

/-- Subtraction modulo `edP`. -/
def subP (a b : Nat) : Nat := (a % edP + edP - b % edP) % edP

/-- A curve point in extended twisted Edwards coordinates. -/
structure EdPoint where
  x : Nat
  y : Nat
  z : Nat
  t : Nat

/-- The neutral element. -/
def edZero : EdPoint := ⟨0, 1, 1, 0⟩

/-- Complete point addition (tweetnacl `add`, also used for doubling). -/
def edAdd (p q : EdPoint) : EdPoint :=
  let a := subP p.y p.x * subP q.y q.x % edP
  let b := (p.y + p.x) % edP * ((q.y + q.x) % edP) % edP
  let c := 2 * edD % edP * p.t % edP * q.t % edP
  let dd := 2 * p.z % edP * q.z % edP
  let e := subP b a
  let f := subP dd c
  let g := (dd + c) % edP
  let h := (b + a) % edP
  ⟨e * f % edP, g * h % edP, f * g % edP, e * h % edP⟩

/-- Scalar multiplication by double-and-add (sound because `edAdd` is a
complete addition law). -/
def edSmul (p : EdPoint) (s : Nat) : EdPoint :=
  if h : s = 0 then edZero
  else
    let r := edSmul (edAdd p p) (s / 2)
    if s % 2 = 1 then edAdd p r else r
termination_by s
decreasing_by exact Nat.div_lt_self (Nat.pos_of_ne_zero h) (by omega)

/-- Recover the even square root `x` with `x^2 = (y^2-1)/(d y^2+1)`
(used only to define the base point from its `y` coordinate). -/
def xRecover (y : Nat) : Nat :=
  let u := subP (y * y % edP) 1
  let v := (edD * (y * y % edP) % edP + 1) % edP
  let b := u * powMod edP v 3 % edP * powMod edP (u * powMod edP v 7 % edP) ((edP - 5) / 8) % edP
  let b2 := if v * (b * b % edP) % edP = subP 0 u then b * edSqrtM1 % edP else b
  if b2 % 2 = 1 then edP - b2 else b2

/-- Base point `y` coordinate, `4/5 mod p`. -/
def edBy : Nat := 4 * edInv 5 % edP

/-- Base point `x` coordinate. -/
def edBx : Nat := xRecover edBy

/-- The Ed25519 base point. -/
def edB : EdPoint := ⟨edBx, edBy, 1, edBx * edBy % edP⟩

/-- Clamp the low 32 hash bytes into a scalar: clear bits 0–2 and 255,
set bit 254. -/
def clampScalar (bytes : List Nat) : Nat :=
  bytesToNatLE (bytes.take 32) &&& (2 ^ 255 - 8) ||| 2 ^ 254

/-- Encode a point: 32 little-endian bytes of `y` with the top bit holding
the parity of `x`. -/
def encodeEdPoint (p : EdPoint) : List Nat :=
  let zi := edInv p.z
  let x := p.x * zi % edP
  let y := p.y * zi % edP
  natToBytesLE 32 (y + 2 ^ 255 * (x % 2))

theorem encodeEdPoint_length (p : EdPoint) : (encodeEdPoint p).length = 32 := by
  simp [encodeEdPoint, natToBytesLE_length]

/-- Public key derived from a 32-byte seed (tweetnacl
`nacl.sign.keyPair.fromSeed(seed).publicKey`). -/
def derivePublicKey (seed : List Nat) : List Nat :=
  encodeEdPoint (edSmul edB (clampScalar (sha512 (seed.take 32))))

/-- tweetnacl `nacl.sign.keyPair.fromSeed`: `(publicKey, secretKey)` with
`secretKey = seed ‖ publicKey`. -/
def naclKeyPairFromSeed (seed : List Nat) : List Nat × List Nat :=
  let pk := derivePublicKey seed
  (pk, seed.take 32 ++ pk)

/-- The 64-byte Ed25519 signature `R ‖ S` of `msg` under the 64-byte
tweetnacl secret key `sk = seed ‖ publicKey`. -/
def naclSignature (msg sk : List Nat) : List Nat :=
  let d := sha512 (sk.take 32)
  let a := clampScalar d
  let r := bytesToNatLE (sha512 (d.drop 32 ++ msg)) % edL
  let rEnc := encodeEdPoint (edSmul edB r)
  let hh := bytesToNatLE (sha512 (rEnc ++ sk.drop 32 ++ msg)) % edL
  let s := (r + hh * a) % edL
  rEnc ++ natToBytesLE 32 s

/-- tweetnacl `nacl.sign`: the combined (attached) signed message —
signature followed by the message. -/
def naclSign (msg sk : List Nat) : List Nat := naclSignature msg sk ++ msg

theorem naclSignature_length (msg sk : List Nat) :
    (naclSignature msg sk).length = 64 := by
  simp [naclSignature, encodeEdPoint_length, natToBytesLE_length]

/-! ## Error taxonomy

One constructor per distinct throw site of the embedded sources, carrying the
data interpolated into the thrown `Error` message. -/

/-- Failure outcomes of the embedded client. -/
inductive Err where
  /-- `auth.js` `buildPayload`: "challenge must include a prefix + base64 payload". -/
  | invalidChallenge : Err
  /-- `auth.js` `signDigest`: "Unexpected Ed25519 key length: ⟨n⟩ bytes". -/
  | unsupportedKeyLength (len : Nat) : Err
  /-- `auth.js` `resolveKeyMaterial`: "Authorization key file not found". -/
  | keyMaterialNotFound : Err
  /-- `auth.js` `normalizeKeyPath`: "Key file path is outside allowed roots: ⟨p⟩". -/
  | pathNotAllowed (resolved : String) : Err
  /-- `unified_client.js` `detectBaseUrl`: "Unable to detect a working base URL". -/
  | baseUrlNotDetected : Err
  /-- `unified_client.js` `callOperation`: "Unknown operationId: ⟨id⟩". -/
  | unknownOperation (opId : String) : Err
  /-- `unified_client.js` `request` / `downloadImage`:
  "HTTP ⟨status⟩ ⟨statusText⟩ ⟨excerpt⟩". -/
  | httpError (status : Nat) (statusText : String) (excerpt : String) : Err
  /-- A rejected `fetch` (network failure) propagating out of `request`. -/
  | networkFailure : Err
  /-- A `response.json()` rejection (`SyntaxError` from `JSON.parse`). -/
  | jsonError (msg : String) : Err
deriving DecidableEq, Repr

/-! ## `auth.js`: challenge signing -/

/-- The per-attempt authorization context (`AuthContext` in `auth.js`). -/
structure AuthContext where
  challenge : String
  telescopeId : String
  bootCount : Nat

/-- `auth.js` `buildPayload`: validate the challenge, base64-decode its tail
and append `"|" + telescopeId + "|" + bootCount` as UTF-8 bytes. -/
def buildPayload (ctx : AuthContext) : Except Err (List Nat) :=
  if ctx.challenge.length < 2 then .error .invalidChallenge
  else
    .ok (base64Decode (strDrop1 ctx.challenge) ++
      utf8Bytes ("|" ++ ctx.telescopeId ++ "|" ++ toString ctx.bootCount))

/-- `auth.js` `signDigest`: sign with a 64-byte expanded key directly, derive
the key pair first for a 32-byte seed, and reject any other length. -/
def signDigest (digest keyBytes : List Nat) : Except Err (List Nat) :=
  if keyBytes.length = 64 then .ok (naclSign digest keyBytes)
  else if keyBytes.length = 32 then
    .ok (naclSign digest (naclKeyPairFromSeed keyBytes).2)
  else .error (.unsupportedKeyLength keyBytes.length)

/-- The secret key `signDigest` hands to `nacl.sign` for a given key
(the key itself in the 64-byte form, the derived secret key for a seed). -/
def signingKeyOf (keyBytes : List Nat) : List Nat :=
  if keyBytes.length = 64 then keyBytes else (naclKeyPairFromSeed keyBytes).2

/-- `auth.js` `buildAuthorizationHeader`, applied to already-resolved key
material (the `keyMaterial` branch of `resolveKeyMaterial` is the identity
on raw bytes). Pure: its only inputs are the context and the key bytes. -/
def buildAuthorizationHeader (ctx : AuthContext) (keyBytes : List Nat) :
    Except Err String :=
  match buildPayload ctx with
  | .error e => .error e
  | .ok payload =>
    match signDigest (sha512 payload) keyBytes with
    | .error e => .error e
    | .ok signedMessage =>
      .ok ("Basic android|" ++ strTake1 ctx.challenge ++ "|" ++ base64Encode signedMessage)

/-! ## `auth.js`: key-path resolution and the path-traversal guard

Paths are modelled lexically (POSIX flavour, `process.platform = "linux"`):
`path.resolve` pins a relative path under the current working directory and
folds `.` and `..` segments; it follows no symlinks, exactly like the
source. The permitted roots (`SAFE_KEY_ROOTS`) and the filesystem are
explicit parameters. -/

/-- Split a character list at a separator. -/
def splitChar (sep : Char) : List Char → List (List Char)
  | [] => [[]]
  | c :: rest =>
    let r := splitChar sep rest
    if c = sep then [] :: r
    else
      match r with
      | h :: t => (c :: h) :: t
      | [] => [[c]]

/-- Fold `.`, `..` and empty segments, POSIX-absolute semantics
(`..` at the root stays at the root). `acc` holds processed segments
in reverse. -/
def normSegs (acc : List String) : List String → List String
  | [] => acc.reverse
  | "" :: rest => normSegs acc rest
  | "." :: rest => normSegs acc rest
  | ".." :: rest => normSegs acc.tail rest
  | seg :: rest => normSegs (seg :: acc) rest

/-- Node `path.resolve(cwd, p)` for an absolute `cwd`, lexically. -/
def resolvePath (cwd p : String) : String :=
  let full := if strStarts p "/" then p else cwd ++ "/" ++ p
  let segs := normSegs [] ((splitChar '/' full.toList).map String.mk)
  "/" ++ String.intercalate "/" segs

/-- Strip trailing `/` and `\` characters (the `replace(/[\\\/]+$/, "")`
in `normalizeForCompare`). -/
def stripTrailingSeps (s : String) : String :=
  String.mk ((s.toList.reverse.dropWhile (fun c => c = '/' ∨ c = '\\')).reverse)

/-- `auth.js` `normalizeForCompare` on linux (no lower-casing). -/
def normalizeForCompare (cwd v : String) : String :=
  stripTrailingSeps (resolvePath cwd v)

/-- `auth.js` `isWithinRoot`. -/
def isWithinRoot (cwd root target : String) : Bool :=
  let nr := normalizeForCompare cwd root
  let nt := normalizeForCompare cwd target
  if nr = nt then true
  else
    let withSep :=
      if strEnds nr "\\" || strEnds nr "/" then nr
      else nr ++ (if strContains nr "\\" then "\\" else "/")
    strStarts nt withSep

/-- The ambient filesystem-ish environment of `auth.js`: the working
directory and the `SAFE_KEY_ROOTS` list. -/
structure AuthEnv where
  cwd : String
  roots : List String

/-- `SAFE_KEY_ROOTS` as built at module load: cwd, home, tmp, and the
package directory tree (`resolve(__dirname, "..")` and
`resolve(__dirname, "../../..")`). -/
def safeKeyRoots (cwd home tmp pkgSrcDir : String) : List String :=
  [cwd, home, tmp, resolvePath pkgSrcDir "..", resolvePath pkgSrcDir "../../.."]

/-- `auth.js` `normalizeKeyPath`: resolve, accept if under a nonempty
permitted root, otherwise throw `PathNotAllowed`. -/
def normalizeKeyPath (env : AuthEnv) (v : String) : Except Err String :=
  let resolved := resolvePath env.cwd v
  if env.roots.any (fun root => !(root = "") && isWithinRoot env.cwd root resolved) then
    .ok resolved
  else .error (.pathNotAllowed resolved)

/-- `auth.js` `readKeyFile`, with the filesystem as a function and the list
of paths actually read returned alongside the result (second component):
normalize first, read only on success, trim, base64-decode. -/
def readKeyFile (env : AuthEnv) (fsRead : String → String) (path : String) :
    Except Err (List Nat) × List String :=
  match normalizeKeyPath env path with
  | .error e => (.error e, [])
  | .ok safePath => (.ok (base64Decode (strTrim (fsRead safePath))), [safePath])

/-- Candidate list of `auth.js` `findKeyPath` (explicit option, environment
variable, `./.auth_key`, the package default, the python sibling default);
JS truthiness drops empty strings. -/
def keyPathCandidates (env : AuthEnv) (pkgSrcDir : String)
    (envVar explicitPath : Option String) : List String :=
  (match explicitPath with
   | some s => if s = "" then [] else [s]
   | none => []) ++
  (match envVar with
   | some s => if s = "" then [] else [s]
   | none => []) ++
  [resolvePath env.cwd ".auth_key",
   resolvePath pkgSrcDir "../.auth_key",
   resolvePath (resolvePath pkgSrcDir "../../..") "python/.auth_key"]

/-- The candidate loop of `findKeyPath`: skip non-existing candidates, and
skip (catch-and-continue) candidates whose normalization throws. -/
def findKeyPathGo (env : AuthEnv) (existsFn : String → Bool) :
    List String → Option String
  | [] => none
  | cand :: rest =>
    if !(cand = "") && existsFn cand then
      match normalizeKeyPath env cand with
      | .ok safePath => some safePath
      | .error _ => findKeyPathGo env existsFn rest
    else findKeyPathGo env existsFn rest

/-- `auth.js` `findKeyPath`. -/
def findKeyPath (env : AuthEnv) (existsFn : String → Bool) (pkgSrcDir : String)
    (envVar explicitPath : Option String) : Option String :=
  findKeyPathGo env existsFn (keyPathCandidates env pkgSrcDir envVar explicitPath)

/-! ## JSON (model of the `JSON.parse` / `JSON.stringify` builtins) -/

/-- A parsed JSON value. Numbers keep their source lexeme: no claim below
observes numeric semantics, only the value's shape. -/
inductive Json where
  | null : Json
  | bool (b : Bool) : Json
  | num (raw : String) : Json
  | str (s : String) : Json
  | arr (elems : List Json) : Json
  | obj (fields : List (String × Json)) : Json

/-- The `leftBrace` character. -/
def lbraceChar : Char := Char.ofNat 123

/-- The `rightBrace` character. -/
def rbraceChar : Char := Char.ofNat 125

/-- Skip JSON insignificant whitespace. -/
def skipWs (cs : List Char) : List Char :=
  cs.dropWhile (fun c => c == ' ' || c == '\t' || c == '\n' || c == '\r')

/-- Hexadecimal digit value. -/
def hexDigit (c : Char) : Option Nat :=
  let n := c.toNat
  if 48 ≤ n ∧ n ≤ 57 then some (n - 48)
  else if 97 ≤ n ∧ n ≤ 102 then some (n - 87)
  else if 65 ≤ n ∧ n ≤ 70 then some (n - 55)
  else none

/-- Parse the remainder of a JSON string literal (opening quote consumed). -/
def pStringChars : List Char → List Char → Except String (String × List Char)
  | [], _ => .error "unterminated string"
  | '"' :: rest, acc => .ok (String.mk acc.reverse, rest)
  | '\\' :: e :: rest, acc =>
    if e = '"' ∨ e = '\\' ∨ e = '/' then pStringChars rest (e :: acc)
    else if e = 'n' then pStringChars rest ('\n' :: acc)
    else if e = 't' then pStringChars rest ('\t' :: acc)
    else if e = 'r' then pStringChars rest ('\r' :: acc)
    else if e = 'b' then pStringChars rest (Char.ofNat 8 :: acc)
    else if e = 'f' then pStringChars rest (Char.ofNat 12 :: acc)
    else if e = 'u' then
      match rest with
      | h1 :: h2 :: h3 :: h4 :: rest2 =>
        match hexDigit h1, hexDigit h2, hexDigit h3, hexDigit h4 with
        | some a, some b, some c, some d =>
            pStringChars rest2 (Char.ofNat (((a * 16 + b) * 16 + c) * 16 + d) :: acc)
        | _, _, _, _ => .error "bad unicode escape"
      | _ => .error "bad unicode escape"
    else .error "bad escape"
  | ['\\'], _ => .error "unterminated escape"
  | c :: rest, acc => pStringChars rest (c :: acc)

/-- Split off a leading digit run. -/
def spanDigits (cs : List Char) : List Char × List Char :=
  (cs.takeWhile Char.isDigit, cs.dropWhile Char.isDigit)

/-- JSON integer-part digits: nonempty, no leading zero. -/
def pIntDigits (cs : List Char) : Except String (List Char × List Char) :=
  match spanDigits cs with
  | ([], _) => .error "bad number"
  | (ds, r) => if 1 < ds.length ∧ ds.headD 'x' = '0' then .error "bad number" else .ok (ds, r)

/-- Optional JSON fraction part. -/
def pFrac : List Char → Except String (List Char × List Char)
  | '.' :: r =>
    (match spanDigits r with
     | ([], _) => .error "bad number"
     | (fs, rr) => .ok ('.' :: fs, rr))
  | cs => .ok ([], cs)

/-- Optional JSON exponent part. -/
def pExp : List Char → Except String (List Char × List Char)
  | c :: r =>
    if c = 'e' ∨ c = 'E' then
      let sr := match r with
        | s :: rr => if s = '+' ∨ s = '-' then ([s], rr) else (([] : List Char), s :: rr)
        | [] => ([], [])
      match spanDigits sr.2 with
      | ([], _) => .error "bad number"
      | (ds, rr) => .ok (c :: sr.1 ++ ds, rr)
    else .ok ([], c :: r)
  | [] => .ok ([], [])

/-- Parse a JSON number token, keeping the lexeme. -/
def pNumber (cs : List Char) : Except String (String × List Char) :=
  let sgn := match cs with
    | '-' :: r => (['-'], r)
    | _ => (([] : List Char), cs)
  match pIntDigits sgn.2 with
  | .error e => .error e
  | .ok (ip, r1) =>
    match pFrac r1 with
    | .error e => .error e
    | .ok (fp, r2) =>
      match pExp r2 with
      | .error e => .error e
      | .ok (ep, r3) => .ok (String.mk (sgn.1 ++ ip ++ fp ++ ep), r3)

mutual

/-- Parse one JSON value (fuel-bounded recursive descent). -/
def pVal : Nat → List Char → Except String (Json × List Char)
  | 0, _ => .error "depth limit"
  | fuel + 1, cs =>
    match skipWs cs with
    | [] => .error "unexpected end of input"
    | c :: rest =>
      if c = 'n' then
        match rest with
        | 'u' :: 'l' :: 'l' :: r => .ok (.null, r)
        | _ => .error "bad literal"
      else if c = 't' then
        match rest with
        | 'r' :: 'u' :: 'e' :: r => .ok (.bool true, r)
        | _ => .error "bad literal"
      else if c = 'f' then
        match rest with
        | 'a' :: 'l' :: 's' :: 'e' :: r => .ok (.bool false, r)
        | _ => .error "bad literal"
      else if c = '"' then
        match pStringChars rest [] with
        | .error e => .error e
        | .ok (s, r) => .ok (.str s, r)
      else if c = '[' then pArrItems fuel rest []
      else if c = lbraceChar then pObjItems fuel rest []
      else if c = '-' ∨ c.isDigit then
        match pNumber (c :: rest) with
        | .error e => .error e
        | .ok (s, r) => .ok (.num s, r)
      else .error "unexpected character"

/-- Parse array items after `[`. -/
def pArrItems : Nat → List Char → List Json → Except String (Json × List Char)
  | 0, _, _ => .error "depth limit"
  | fuel + 1, cs, acc =>
    match skipWs cs with
    | ']' :: r => if acc.isEmpty then .ok (.arr [], r) else .error "unexpected brackem"
    | cs2 =>
      match pVal fuel cs2 with
      | .error e => .error e
      | .ok (v, r) =>
        match skipWs r with
        | ',' :: r2 => pArrItems fuel r2 (acc ++ [v])
        | ']' :: r2 => .ok (.arr (acc ++ [v]), r2)
        | _ => .error "expected separator or end of array"

/-- Parse object fields after the opening brace. -/
def pObjItems : Nat → List Char → List (String × Json) →
    Except String (Json × List Char)
  | 0, _, _ => .error "depth limit"
  | fuel + 1, cs, acc =>
    match skipWs cs with
    | [] => .error "unexpected end of input"
    | c :: r =>
      if c = rbraceChar ∧ acc.isEmpty then .ok (.obj [], r)
      else if c = '"' then
        match pStringChars r [] with
        | .error e => .error e
        | .ok (k, r1) =>
          match skipWs r1 with
          | ':' :: r2 =>
            match pVal fuel r2 with
            | .error e => .error e
            | .ok (v, r3) =>
              match skipWs r3 with
              | [] => .error "unexpected end of input"
              | c2 :: r4 =>
                if c2 = ',' then pObjItems fuel r4 (acc ++ [(k, v)])
                else if c2 = rbraceChar then .ok (.obj (acc ++ [(k, v)]), r4)
                else .error "expected separator or end of object"
          | _ => .error "expected colon"
      else .error "expected key"

end

/-- `JSON.parse`: parse one value, demand only whitespace after it. -/
def parseJson (s : String) : Except String Json :=
  match pVal (4 * s.length + 8) s.toList with
  | .error e => .error e
  | .ok (v, rest) =>
    if (skipWs rest).isEmpty then .ok v else .error "unexpected trailing characters"

/-- Escape one character for a JSON string literal. -/
def escJsonChar (c : Char) : List Char :=
  if c = '"' then ['\\', '"']
  else if c = '\\' then ['\\', '\\']
  else if c = '\n' then ['\\', 'n']
  else if c = '\t' then ['\\', 't']
  else if c = '\r' then ['\\', 'r']
  else [c]

/-- Quote a string as a JSON string literal. -/
def quoteJsonString (s : String) : String :=
  String.mk ('"' :: s.toList.flatMap escJsonChar ++ ['"'])

mutual

/-- `JSON.stringify` (compact form, as `request` uses it for `jsonBody`). -/
def jsonStringify : Json → String
  | .null => "null"
  | .bool true => "true"
  | .bool false => "false"
  | .num raw => raw
  | .str s => quoteJsonString s
  | .arr elems => "[" ++ String.intercalate "," (jsonStringifyList elems) ++ "]"
  | .obj fields => "\x7b" ++ String.intercalate "," (jsonStringifyFields fields) ++ "\x7d"

/-- Stringify array elements. -/
def jsonStringifyList : List Json → List String
  | [] => []
  | v :: rest => jsonStringify v :: jsonStringifyList rest

/-- Stringify object fields. -/
def jsonStringifyFields : List (String × Json) → List String
  | [] => []
  | (k, v) :: rest => (quoteJsonString k ++ ":" ++ jsonStringify v) :: jsonStringifyFields rest

end

/-! ## JavaScript values for query-string serialization -/

/-- A JavaScript value as far as `buildQuery` observes it. -/
inductive JsVal where
  | vUndef : JsVal
  | vNull : JsVal
  | vBool (b : Bool) : JsVal
  | vNum (n : Int) : JsVal
  | vStr (s : String) : JsVal
  | vArr (elems : List JsVal) : JsVal

/-- Is the value `null` or `undefined`? -/
def JsVal.isNullOrUndef : JsVal → Bool
  | .vUndef => true
  | .vNull => true
  | _ => false

/-- `Array.isArray`. -/
def JsVal.isArr : JsVal → Bool
  | .vArr _ => true
  | _ => false

mutual

/-- JS `String(value)`. -/
def jsToString : JsVal → String
  | .vUndef => "undefined"
  | .vNull => "null"
  | .vBool true => "true"
  | .vBool false => "false"
  | .vNum n => toString n
  | .vStr s => s
  | .vArr elems => String.intercalate "," (jsArrParts elems)

/-- `Array.prototype.toString` parts: `null`/`undefined` render empty. -/
def jsArrParts : List JsVal → List String
  | [] => []
  | .vUndef :: rest => "" :: jsArrParts rest
  | .vNull :: rest => "" :: jsArrParts rest
  | v :: rest => jsToString v :: jsArrParts rest

end

/-! ## `unified_client.js`: query building, URL model, request dispatch -/

/-- `URLSearchParams.append`. -/
def spAppend (qs : List (String × String)) (k v : String) : List (String × String) :=
  qs ++ [(k, v)]

/-- Remove every pair with the given key. -/
def spDeleteKey (k : String) (qs : List (String × String)) : List (String × String) :=
  qs.filter (fun e => !(e.1 = k))

/-- `URLSearchParams.set`: replace the first pair with the key in place and
drop later duplicates, or append when absent. -/
def spSet : List (String × String) → String → String → List (String × String)
  | [], k, v => [(k, v)]
  | (k', v') :: rest, k, v =>
    if k' = k then (k, v) :: spDeleteKey k rest
    else (k', v') :: spSet rest k v

/-- `unified_client.js` `buildQuery` over the URL's search-parameter list:
array values append one entry per element, `null`/`undefined` entries are
skipped, any other value is `String(…)`-converted and `set`. -/
def buildQuery (qs : List (String × String)) :
    List (String × JsVal) → List (String × String)
  | [] => qs
  | (k, v) :: rest =>
    match v with
    | .vArr elems =>
      buildQuery (elems.foldl (fun acc it => spAppend acc k (jsToString it)) qs) rest
    | .vUndef => buildQuery qs rest
    | .vNull => buildQuery qs rest
    | other => buildQuery (spSet qs k (jsToString other)) rest

/-- An HTTP response as the client observes it: status line, content type
(`headers.get("content-type") || ""`), and the body in both of its views
(`text()` and `arrayBuffer()`). -/
structure Response where
  status : Nat
  statusText : String
  contentType : String
  bodyText : String
  bodyBytes : List Nat

/-- `response.ok` (WHATWG fetch: status in 200–299). -/
def respOk (r : Response) : Bool := decide (200 ≤ r.status) && decide (r.status < 300)

/-- The URL handed to fetch: joined href plus the search-parameter list
built by `buildQuery` (the joined paths of this client carry no inline
query string). -/
structure UrlModel where
  href : String
  query : List (String × String)

/-- Arguments of one `fetch` call. -/
structure FetchArgs where
  url : UrlModel
  method : String
  headers : List (String × String)
  body : Option String

/-- The fetch layer; `none` models a rejected fetch (network failure or
timeout abort). -/
abbrev FetchFn := FetchArgs → Option Response

/-- Client configuration (`ClientSession`): `baseUrl` is the cached
resolved base URL, `none` until first detection. -/
structure ClientCfg where
  host : String
  port : Nat
  apiBasePath : String
  prefixes : List String
  baseUrl : Option String

/-- JS `replace(/\/+$/, "")`. -/
def stripTrailingSlashes (s : String) : String :=
  String.mk ((s.toList.reverse.dropWhile (fun c => c = '/')).reverse)

/-- JS `replace(/^\//, "")` — one leading slash. -/
def stripOneLeadingSlash (s : String) : String :=
  match s.toList with
  | '/' :: rest => String.mk rest
  | _ => s

/-- The raw candidate string `http://host:port + prefixValue + apiBasePath`. -/
def rawBaseUrl (c : ClientCfg) (pre : String) : String :=
  "http://" ++ c.host ++ ":" ++ toString c.port ++ pre ++ c.apiBasePath

/-- `unified_client.js` `_makeBaseUrl`: the raw candidate with trailing
slashes stripped. -/
def makeBaseUrl (c : ClientCfg) (pre : String) : String :=
  stripTrailingSlashes (rawBaseUrl c pre)

/-- The probe `GET <candidate>/app/status` issued by `detectBaseUrl`. -/
def probeArgs (c : ClientCfg) (pre : String) : FetchArgs :=
  ⟨⟨makeBaseUrl c pre ++ "/app/status", []⟩, "GET", [], none⟩

/-- Did the probe for this candidate respond with a successful status? A
rejected fetch counts as failure (the source catches and continues). -/
def probeOk (fetchFn : FetchFn) (c : ClientCfg) (pre : String) : Bool :=
  match fetchFn (probeArgs c pre) with
  | some r => respOk r
  | none => false

/-- The candidate loop of `detectBaseUrl`, accumulating the probe trace. -/
def detectGo (fetchFn : FetchFn) (c : ClientCfg) :
    List String → List FetchArgs → Except Err String × List FetchArgs
  | [], acc => (.error .baseUrlNotDetected, acc.reverse)
  | pre :: rest, acc =>
    if probeOk fetchFn c pre then
      (.ok (makeBaseUrl c pre), (probeArgs c pre :: acc).reverse)
    else detectGo fetchFn c rest (probeArgs c pre :: acc)

/-- `unified_client.js` `detectBaseUrl`: probe each configured path-prefix
candidate in order, return the first whose `/app/status` probe succeeds,
throw `BaseUrlNotDetected` when none does. -/
def detectBaseUrl (fetchFn : FetchFn) (c : ClientCfg) :
    Except Err String × List FetchArgs :=
  detectGo fetchFn c c.prefixes []

/-- `this.baseUrl || (await this.detectBaseUrl())`. -/
def resolveBase (fetchFn : FetchFn) (c : ClientCfg) :
    Except Err String × List FetchArgs :=
  match c.baseUrl with
  | some b => (.ok b, [])
  | none => detectBaseUrl fetchFn c

/-- JS object property read. -/
def objGet (l : List (String × String)) (k : String) : Option String :=
  (l.find? (fun e => e.1 = k)).map (fun e => e.2)

/-- JS object property write (keys unique: replace in place or append). -/
def objSet (l : List (String × String)) (k v : String) : List (String × String) :=
  if l.any (fun e => e.1 = k) then l.map (fun e => if e.1 = k then (k, v) else e)
  else l ++ [(k, v)]

/-- Options of `request`. -/
structure RequestOptions where
  auth : Option String := none
  params : List (String × JsVal) := []
  jsonBody : Option Json := none
  body : Option String := none
  headers : List (String × String) := []

/-- Header/body resolution of `request`: copy caller headers, set
`Authorization` when `auth` is truthy, serialize `jsonBody` and default
`Content-Type` unless the caller set a truthy one. -/
def resolveHeadersBody (o : RequestOptions) : List (String × String) × Option String :=
  let h1 := match o.auth with
    | some a => objSet o.headers "Authorization" a
    | none => o.headers
  match o.jsonBody with
  | some j =>
    (if (objGet h1 "Content-Type").getD "" = "" then
       objSet h1 "Content-Type" "application/json"
     else h1,
     some (jsonStringify j))
  | none => (h1, o.body)

/-- A decoded response payload. -/
inductive Payload where
  | text (s : String) : Payload
  | json (j : Json) : Payload

/-- Content-type–driven body decoding: `response.json()` when the content
type mentions `application/json`, `response.text()` otherwise. -/
def decodePayload (r : Response) : Except String Payload :=
  if strContains r.contentType "application/json" then
    match parseJson r.bodyText with
    | .error e => .error e
    | .ok j => .ok (.json j)
  else .ok (.text r.bodyText)

/-- `typeof payload === "string" ? payload : ""` — the body excerpt
interpolated into an `HttpError` (a JSON string body is a string). -/
def payloadExcerpt : Payload → String
  | .text s => s
  | .json (.str s) => s
  | .json _ => ""

/-- The fetch arguments of a `request` call against a resolved base. -/
def mainFetchArgs (base method path : String) (o : RequestOptions) : FetchArgs :=
  let href := stripTrailingSlashes base ++ "/" ++ stripOneLeadingSlash path
  let hb := resolveHeadersBody o
  ⟨⟨href, buildQuery [] o.params⟩, method, hb.1, hb.2⟩

/-- `unified_client.js` `request` (response logging omitted — output
only). Returns the outcome and the trace of fetch calls performed
(detection probes, then the main call). -/
def request (fetchFn : FetchFn) (c : ClientCfg) (method path : String)
    (o : RequestOptions) : Except Err Payload × List FetchArgs :=
  let br := resolveBase fetchFn c
  match br.1 with
  | .error e => (.error e, br.2)
  | .ok base =>
    let args := mainFetchArgs base method path o
    match fetchFn args with
    | none => (.error .networkFailure, br.2 ++ [args])
    | some resp =>
      match decodePayload resp with
      | .error m => (.error (.jsonError m), br.2 ++ [args])
      | .ok payload =>
        if respOk resp then (.ok payload, br.2 ++ [args])
        else
          (.error (.httpError resp.status resp.statusText (payloadExcerpt payload)),
           br.2 ++ [args])

/-- One entry of the static route catalog. -/
structure RouteDefinition where
  operationId : String
  method : String
  path : String

/-- `Map.get` over the catalog built by
`new Map(data.map(item => [item.operationId, item]))` — for duplicate ids
the last entry wins. -/
def mapGet (routes : List RouteDefinition) (opId : String) : Option RouteDefinition :=
  routes.reverse.find? (fun r => r.operationId = opId)

/-- `unified_client.js` `callOperation`: look the id up, throw
`UnknownOperation` before any fetch when absent, else delegate to
`request` with the catalog's method and path. -/
def callOperation (fetchFn : FetchFn) (c : ClientCfg)
    (routes : List RouteDefinition) (opId : String) (o : RequestOptions) :
    Except Err Payload × List FetchArgs :=
  match mapGet routes opId with
  | none => (.error (.unknownOperation opId), [])
  | some route => request fetchFn c route.method route.path o

/-- `unified_client.js` `looksLikeImage`, clause for clause from the
source: image content type, else a 4-byte minimum, else the signature
chain. -/
def looksLikeImage (buffer : List Nat) (contentType : String) : Bool :=
  if strStarts (strLower contentType) "image/" then true
  else if buffer.length < 4 then false
  else if buffer.getD 0 0 = 0xff ∧ buffer.getD 1 0 = 0xd8 ∧ buffer.getD 2 0 = 0xff then true
  else if buffer.take 8 = [0x89, 0x50, 0x4e, 0x47, 0x0d, 0x0a, 0x1a, 0x0a] then true
  else if buffer.take 2 = [0x42, 0x4d] then true
  else if buffer.take 6 = utf8Bytes "GIF87a" ∨ buffer.take 6 = utf8Bytes "GIF89a" then true
  else if buffer.take 4 = [0x49, 0x49, 0x2a, 0x00] ∨ buffer.take 4 = [0x4d, 0x4d, 0x00, 0x2a] then true
  else if 12 ≤ buffer.length ∧ buffer.take 4 = utf8Bytes "RIFF" ∧
      (buffer.drop 8).take 4 = utf8Bytes "WEBP" then true
  else false

/-- The image-signature disjunction exactly as the specification words it:
the response body's *leading bytes* match one of the listed signatures. -/
def claimImageSignatureMatch (b : List Nat) : Bool :=
  decide (b.take 3 = [0xff, 0xd8, 0xff]) ||
  decide (b.take 8 = [0x89, 0x50, 0x4e, 0x47, 0x0d, 0x0a, 0x1a, 0x0a]) ||
  decide (b.take 2 = [0x42, 0x4d]) ||
  decide (b.take 6 = utf8Bytes "GIF87a") || decide (b.take 6 = utf8Bytes "GIF89a") ||
  decide (b.take 4 = [0x49, 0x49, 0x2a, 0x00]) || decide (b.take 4 = [0x4d, 0x4d, 0x00, 0x2a]) ||
  decide (12 ≤ b.length ∧ b.take 4 = utf8Bytes "RIFF" ∧ (b.drop 8).take 4 = utf8Bytes "WEBP")

/-- Options of `downloadImage`. -/
structure DownloadOptions where
  auth : Option String := none
  headers : List (String × String) := []
  params : List (String × JsVal) := []

/-- The fetch arguments of a `downloadImage` call. -/
def imageFetchArgs (base urlOrPath : String) (o : DownloadOptions) : FetchArgs :=
  let fullUrl :=
    if strStarts urlOrPath "http://" || strStarts urlOrPath "https://" then urlOrPath
    else stripTrailingSlashes base ++ "/" ++ stripOneLeadingSlash urlOrPath
  let hdrs := match o.auth with
    | some a => objSet o.headers "Authorization" a
    | none => o.headers
  ⟨⟨fullUrl, buildQuery [] o.params⟩, "GET", hdrs, none⟩

/-- `unified_client.js` `downloadImage` (logging omitted): return the body
bytes when the status is a success or the bytes look like an image;
otherwise throw `HttpError`. -/
def downloadImage (fetchFn : FetchFn) (c : ClientCfg) (urlOrPath : String)
    (o : DownloadOptions) : Except Err (List Nat) × List FetchArgs :=
  let br := resolveBase fetchFn c
  match br.1 with
  | .error e => (.error e, br.2)
  | .ok base =>
    let args := imageFetchArgs base urlOrPath o
    match fetchFn args with
    | none => (.error .networkFailure, br.2 ++ [args])
    | some resp =>
      if respOk resp || looksLikeImage resp.bodyBytes resp.contentType then
        (.ok resp.bodyBytes, br.2 ++ [args])
      else (.error (.httpError resp.status resp.statusText ""), br.2 ++ [args])

/-! ## Socket command channel (`VaonisSocketClient`) -/

/-- A socket.io emit as `sendCommand` performs it: with or without an
acknowledgement callback (of abstract type `κ`). -/
inductive EmitAction (κ : Type) where
  | withAck (event : String) (data : List JsVal) (ack : κ) : EmitAction κ
  | withoutAck (event : String) (data : List JsVal) : EmitAction κ

/-- `VaonisSocketClient.sendCommand`: the data array is `[command]` when
the payload is `undefined` and `[command, payload]` otherwise; emitted
under the fixed `"message"` event; a truthy callback is passed through. -/
def sendCommand (κ : Type) (command : String) (payload : JsVal)
    (callback : Option κ) : EmitAction κ :=
  let data := match payload with
    | .vUndef => [JsVal.vStr command]
    | p => [JsVal.vStr command, p]
  match callback with
  | some cb => .withAck "message" data cb
  | none => .withoutAck "message" data

/-! ## Shared derived definitions used by the statements -/

/-- The digest the authorization header signs, as the specification words
it: SHA-512 of `base64Decode(challenge[1:])` followed by the UTF-8 bytes of
`"|" + telescopeId + "|" + bootCount`. -/
def authDigest (ctx : AuthContext) : List Nat :=
  sha512 (base64Decode (strDrop1 ctx.challenge) ++
    utf8Bytes ("|" ++ ctx.telescopeId ++ "|" ++ toString ctx.bootCount))

/-- `RequestOptions` with every field defaulted. -/
def emptyReqOptions : RequestOptions := ⟨none, [], none, none, []⟩

/-- `DownloadOptions` with every field defaulted. -/
def emptyDlOptions : DownloadOptions := ⟨none, [], []⟩

/-- Is the outcome an `HttpError`? -/
def isHttpErrorOutcome : Except Err Payload → Bool
  | .error (.httpError _ _ _) => true
  | _ => false

/-- Is the outcome any failure? -/
def isErrorOutcome : Except Err Payload → Bool
  | .error _ => true
  | _ => false

/-! ## Helper lemmas -/

theorem strMk_toList (s : String) : String.mk s.toList = s := by
  cases s
  rfl

theorem stripTrailingSlashes_id (s : String) (h : strEnds s "/" = false) :
    stripTrailingSlashes s = s := by
  have hpre : (List.isPrefixOf ['/'] s.toList.reverse) = false := by
    simpa [strEnds, List.isSuffixOf] using h
  have hdrop : s.toList.reverse.dropWhile (fun c => c = '/') = s.toList.reverse := by
    cases hrev : s.toList.reverse with
    | nil => rfl
    | cons a t =>
      rw [hrev] at hpre
      simp [List.isPrefixOf] at hpre
      have ha : ¬ a = '/' := fun hh => hpre hh.symm
      simp [List.dropWhile, ha]
  unfold stripTrailingSlashes
  rw [hdrop, List.reverse_reverse, strMk_toList]

theorem normalizeKeyPath_ok (env : AuthEnv) (v q : String)
    (h : normalizeKeyPath env v = .ok q) :
    q = resolvePath env.cwd v ∧
    env.roots.any (fun root => !(root = "") && isWithinRoot env.cwd root q) = true := by
  simp only [normalizeKeyPath] at h
  split at h
  · injection h with h'
    subst h'
    exact ⟨rfl, by assumption⟩
  · cases h

theorem findKeyPathGo_safe (env : AuthEnv) (existsFn : String → Bool) :
    ∀ cands q, findKeyPathGo env existsFn cands = some q →
      ∃ root ∈ env.roots, ¬ root = "" ∧ isWithinRoot env.cwd root q = true := by
  intro cands
  induction cands with
  | nil => intro q h; cases h
  | cons cand rest ih =>
    intro q h
    unfold findKeyPathGo at h
    split at h
    · cases hn : normalizeKeyPath env cand with
      | ok safePath =>
        rw [hn] at h
        injection h with h'
        subst h'
        have hany := (normalizeKeyPath_ok env cand safePath hn).2
        rcases List.any_eq_true.mp hany with ⟨root, hmem, hcond⟩
        rcases Bool.and_eq_true_iff.mp hcond with ⟨hne, hin⟩
        refine ⟨root, hmem, ?_, hin⟩
        intro he
        rw [he] at hne
        simp at hne
      | error e =>
        rw [hn] at h
        exact ih q h
    · exact ih q h

/-! ## Claim C2 -/

/-- C2: a file-path candidate whose lexical resolution (with `..`
folding) lands outside every permitted root is rejected:
`normalizeKeyPath` fails with `PathNotAllowed`, `readKeyFile` fails the
same way with an empty read trace (the file is never read), and
`findKeyPath` can only ever return a path that lies under a nonempty
permitted root. -/
theorem c2_path_outside_roots_rejected (env : AuthEnv) (fsRead : String → String)
    (p : String)
    (hout : ∀ root ∈ env.roots,
      root = "" ∨ isWithinRoot env.cwd root (resolvePath env.cwd p) = false) :
    normalizeKeyPath env p = .error (.pathNotAllowed (resolvePath env.cwd p)) ∧
    readKeyFile env fsRead p = (.error (.pathNotAllowed (resolvePath env.cwd p)), []) ∧
    (∀ existsFn pkgSrcDir envVar explicitPath q,
      findKeyPath env existsFn pkgSrcDir envVar explicitPath = some q →
      ∃ root ∈ env.roots, ¬ root = "" ∧ isWithinRoot env.cwd root q = true) := by
  have hany : env.roots.any
      (fun root => !(root = "") && isWithinRoot env.cwd root (resolvePath env.cwd p)) = false := by
    rw [List.any_eq_false]
    intro root hmem
    rcases hout root hmem with he | hfalse
    · simp [he]
    · simp [hfalse]
  refine ⟨?_, ?_, ?_⟩
  · simp [normalizeKeyPath, hany]
  · simp [readKeyFile, normalizeKeyPath, hany]
  · intro existsFn pkgSrcDir envVar explicitPath q h
    exact findKeyPathGo_safe env existsFn _ q h

/-- Witness for C2: with the cwd `/home/user/proj`, the standard permitted
roots, and a deep package directory, the traversal candidate
`../../../etc/passwd` resolves to `/etc/passwd`, is outside every root,
and is rejected unread. -/
theorem c2_path_outside_roots_rejected_witness :
    (∀ root ∈ (safeKeyRoots "/home/user/proj" "/home/user" "/tmp"
        "/home/user/app/node_modules/vaonis/src"),
      root = "" ∨ isWithinRoot "/home/user/proj" root
        (resolvePath "/home/user/proj" "../../../etc/passwd") = false) ∧
    normalizeKeyPath
        ⟨"/home/user/proj", safeKeyRoots "/home/user/proj" "/home/user" "/tmp"
          "/home/user/app/node_modules/vaonis/src"⟩ "../../../etc/passwd" =
      .error (.pathNotAllowed (resolvePath "/home/user/proj" "../../../etc/passwd")) ∧
    readKeyFile
        ⟨"/home/user/proj", safeKeyRoots "/home/user/proj" "/home/user" "/tmp"
          "/home/user/app/node_modules/vaonis/src"⟩ (fun _ => "") "../../../etc/passwd" =
      (.error (.pathNotAllowed (resolvePath "/home/user/proj" "../../../etc/passwd")), []) :=
  ⟨by decide,
   (c2_path_outside_roots_rejected
      ⟨"/home/user/proj", safeKeyRoots "/home/user/proj" "/home/user" "/tmp"
        "/home/user/app/node_modules/vaonis/src"⟩ (fun _ => "") "../../../etc/passwd"
      (by decide)).1,
   (c2_path_outside_roots_rejected
      ⟨"/home/user/proj", safeKeyRoots "/home/user/proj" "/home/user" "/tmp"
        "/home/user/app/node_modules/vaonis/src"⟩ (fun _ => "") "../../../etc/passwd"
      (by decide)).2.1⟩

/-! ## Claim C1 -/

/-- C1: for every context whose challenge has length at least 2 and every
key of exactly 32 or 64 bytes, `buildAuthorizationHeader` returns
`Basic android|` + challenge[0] + `|` + base64 of the Ed25519 combined
(attached) signed message — the 64-byte signature followed by the 64-byte
SHA-512 digest of `base64Decode(challenge[1:]) ‖ utf8("|" + telescopeId +
"|" + bootCount)` — and that blob is exactly 128 bytes for both key
forms. -/
theorem c1_authorization_header_format (ctx : AuthContext) (key : List Nat)
    (hch : 2 ≤ ctx.challenge.length) (hkey : key.length = 32 ∨ key.length = 64) :
    buildAuthorizationHeader ctx key =
      .ok ("Basic android|" ++ strTake1 ctx.challenge ++ "|" ++
        base64Encode (naclSignature (authDigest ctx) (signingKeyOf key) ++ authDigest ctx)) ∧
    (naclSignature (authDigest ctx) (signingKeyOf key)).length = 64 ∧
    (naclSignature (authDigest ctx) (signingKeyOf key) ++ authDigest ctx).length = 128 := by
  have hnot : ¬ ctx.challenge.length < 2 := by omega
  refine ⟨?_, naclSignature_length _ _, ?_⟩
  · rcases hkey with h32 | h64
    · have hne : ¬ key.length = 64 := by omega
      simp [buildAuthorizationHeader, buildPayload, hnot, signDigest, h32, hne,
        signingKeyOf, naclSign, authDigest]
    · simp [buildAuthorizationHeader, buildPayload, hnot, signDigest, h64,
        signingKeyOf, naclSign, authDigest]
  · simp [List.length_append, naclSignature_length, authDigest, sha512_length]

/-- Witness for C1: the hypotheses hold and the conclusion follows at the
challenge `"AQID"`, telescope id `"scope-1"`, boot count 7 and the 32-byte
all-5 seed. -/
theorem c1_authorization_header_format_witness :
    2 ≤ ("AQID" : String).length ∧
    ((List.replicate 32 5).length = 32 ∨ (List.replicate 32 5).length = 64) ∧
    (buildAuthorizationHeader ⟨"AQID", "scope-1", 7⟩ (List.replicate 32 5) =
      .ok ("Basic android|" ++ strTake1 "AQID" ++ "|" ++
        base64Encode (naclSignature (authDigest ⟨"AQID", "scope-1", 7⟩)
            (signingKeyOf (List.replicate 32 5)) ++
          authDigest ⟨"AQID", "scope-1", 7⟩)) ∧
     (naclSignature (authDigest ⟨"AQID", "scope-1", 7⟩)
        (signingKeyOf (List.replicate 32 5))).length = 64 ∧
     (naclSignature (authDigest ⟨"AQID", "scope-1", 7⟩)
        (signingKeyOf (List.replicate 32 5)) ++
        authDigest ⟨"AQID", "scope-1", 7⟩).length = 128) :=
  ⟨by decide, Or.inl (by simp),
   c1_authorization_header_format ⟨"AQID", "scope-1", 7⟩ (List.replicate 32 5)
     (by decide) (Or.inl (by simp))⟩

/-! ## Claim C4 -/

/-- C4: `buildAuthorizationHeader` fails with `InvalidChallenge` for every
challenge shorter than 2 characters, and, for challenges of length at
least 2, fails with `UnsupportedKeyLength` for every key whose length is
neither 32 nor 64; both failures are values of the pure function — no
retries, no I/O. -/
theorem c4_failure_modes (ctx : AuthContext) (key : List Nat) :
    (ctx.challenge.length < 2 →
      buildAuthorizationHeader ctx key = .error .invalidChallenge) ∧
    (2 ≤ ctx.challenge.length → ¬ key.length = 32 → ¬ key.length = 64 →
      buildAuthorizationHeader ctx key = .error (.unsupportedKeyLength key.length)) := by
  constructor
  · intro h
    simp [buildAuthorizationHeader, buildPayload, h]
  · intro hch h32 h64
    have hnot : ¬ ctx.challenge.length < 2 := by omega
    simp [buildAuthorizationHeader, buildPayload, hnot, signDigest, h32, h64]

/-- Witness for C4: the one-character challenge `"A"` yields
`InvalidChallenge`, and a 5-byte key with the valid challenge `"AQID"`
yields `UnsupportedKeyLength 5`. -/
theorem c4_failure_modes_witness :
    (("A" : String).length < 2 ∧
      buildAuthorizationHeader ⟨"A", "t", 1⟩ (List.replicate 5 0) =
        .error .invalidChallenge) ∧
    (2 ≤ ("AQID" : String).length ∧ ¬ (List.replicate 5 0).length = 32 ∧
      ¬ (List.replicate 5 0).length = 64 ∧
      buildAuthorizationHeader ⟨"AQID", "t", 1⟩ (List.replicate 5 0) =
        .error (.unsupportedKeyLength 5)) :=
  ⟨⟨by decide, (c4_failure_modes ⟨"A", "t", 1⟩ (List.replicate 5 0)).1 (by decide)⟩,
   ⟨by decide, by simp, by simp,
    (c4_failure_modes ⟨"AQID", "t", 1⟩ (List.replicate 5 0)).2 (by decide)
      (by simp) (by simp)⟩⟩

/-! ## Claim C3 -/

theorem jpeg_cond_take (b : List Nat) (h : 4 ≤ b.length) :
    (b.getD 0 0 = 0xff ∧ b.getD 1 0 = 0xd8 ∧ b.getD 2 0 = 0xff) ↔
      b.take 3 = [0xff, 0xd8, 0xff] := by
  cases b with
  | nil => simp at h
  | cons b0 t =>
    cases t with
    | nil => simp at h
    | cons b1 t2 =>
      cases t2 with
      | nil => simp at h
      | cons b2 t3 => simp [List.getD]

theorem looksLikeImage_eq_claim (b : List Nat) (ct : String) :
    looksLikeImage b ct =
      (strStarts (strLower ct) "image/" ||
        (!decide (b.length < 4) && claimImageSignatureMatch b)) := by
  by_cases hct : strStarts (strLower ct) "image/" = true
  · simp [looksLikeImage, hct]
  · have hct' : strStarts (strLower ct) "image/" = false := by
      simpa using hct
    by_cases hlen : b.length < 4
    · simp [looksLikeImage, hct', hlen]
    · have h4 : 4 ≤ b.length := by omega
      simp only [looksLikeImage, claimImageSignatureMatch, hct', hlen,
        jpeg_cond_take b h4, Bool.false_or, if_false, decide_False, Bool.not_false,
        Bool.true_and]
      split_ifs <;> simp_all

/-- C3 (amended): `downloadImage` returns the body bytes unchanged on a
successful status; on a non-success status it returns them iff the
response declares an `image/*` content type or the body is at least 4
bytes long and its leading bytes match one of the listed image
signatures, and otherwise fails with `HttpError` carrying the status. -/
theorem c3_download_image_tolerance (fetchFn : FetchFn) (c : ClientCfg)
    (urlOrPath : String) (o : DownloadOptions) (base : String) (resp : Response)
    (hbase : (resolveBase fetchFn c).1 = .ok base)
    (hfetch : fetchFn (imageFetchArgs base urlOrPath o) = some resp) :
    (respOk resp = true →
      (downloadImage fetchFn c urlOrPath o).1 = .ok resp.bodyBytes) ∧
    (respOk resp = false →
      ((downloadImage fetchFn c urlOrPath o).1 = .ok resp.bodyBytes ↔
        (strStarts (strLower resp.contentType) "image/" ||
          (!decide (resp.bodyBytes.length < 4) &&
            claimImageSignatureMatch resp.bodyBytes)) = true) ∧
      ((strStarts (strLower resp.contentType) "image/" ||
          (!decide (resp.bodyBytes.length < 4) &&
            claimImageSignatureMatch resp.bodyBytes)) = false →
        (downloadImage fetchFn c urlOrPath o).1 =
          .error (.httpError resp.status resp.statusText ""))) := by
  have hdl : (downloadImage fetchFn c urlOrPath o).1 =
      (if respOk resp || looksLikeImage resp.bodyBytes resp.contentType then
        .ok resp.bodyBytes
      else .error (.httpError resp.status resp.statusText "")) := by
    unfold downloadImage
    rcases hres : resolveBase fetchFn c with ⟨resE, tr⟩
    rw [hres] at hbase
    simp only at hbase
    subst hbase
    simp only [hfetch]
    split <;> rfl
  constructor
  · intro hok
    rw [hdl, hok]
    simp
  · intro hok
    rw [hdl, hok, looksLikeImage_eq_claim]
    constructor
    · by_cases hcond : (strStarts (strLower resp.contentType) "image/" ||
          (!decide (resp.bodyBytes.length < 4) &&
            claimImageSignatureMatch resp.bodyBytes)) = true
      · simp [hcond]
      · have hcond' : (strStarts (strLower resp.contentType) "image/" ||
            (!decide (resp.bodyBytes.length < 4) &&
              claimImageSignatureMatch resp.bodyBytes)) = false := by
          simpa using hcond
        simp [hcond']
    · intro hcond
      simp [hcond]

/-- The concrete client (cached base URL) used for the HTTP examples. -/
def exClient : ClientCfg :=
  ⟨"10.0.0.1", 8082, "/v1", ["", "/stellina/http"], some "http://10.0.0.1:8082/v1"⟩

/-- A 500 response whose two-byte body is exactly the ASCII `BM`
signature. -/
def bmResp : Response := ⟨500, "Internal Server Error", "", "BM", [0x42, 0x4d]⟩

/-- A fetch layer constantly answering `bmResp`. -/
def bmFetch : FetchFn := fun _ => some bmResp

/-- Counterexample to C3 as stated: the status-500 body `BM` (two bytes)
has leading bytes matching the listed BMP signature, yet `downloadImage`
fails with `HttpError 500` — the source demands at least 4 bytes before
it consults the signature list. -/
theorem c3_download_image_tolerance_counterexample :
    claimImageSignatureMatch [0x42, 0x4d] = true ∧
    respOk bmResp = false ∧
    (downloadImage bmFetch exClient "storage/pic.bin" emptyDlOptions).1 =
      .error (.httpError 500 "Internal Server Error" "") := by
  refine ⟨by decide, by decide, by rfl⟩

/-- A 500 response whose body starts with the canonical 8-byte PNG
signature. -/
def pngResp : Response :=
  ⟨500, "Internal Server Error", "", "",
   [0x89, 0x50, 0x4e, 0x47, 0x0d, 0x0a, 0x1a, 0x0a, 0x00, 0x01]⟩

/-- A fetch layer constantly answering `pngResp`. -/
def pngFetch : FetchFn := fun _ => some pngResp

/-- Witness for C3 (amended) at the PNG example: a status-500 body whose
first 8 bytes are the PNG signature is returned unchanged. -/
theorem c3_download_image_tolerance_witness :
    (downloadImage pngFetch exClient "storage/pic.png" emptyDlOptions).1 =
      .ok pngResp.bodyBytes :=
  ((c3_download_image_tolerance pngFetch exClient "storage/pic.png" emptyDlOptions
      "http://10.0.0.1:8082/v1" pngResp rfl rfl).2 (by decide)).1.mpr (by decide)

/-! ## Claim C5 -/

theorem detectGo_first_success (fetchFn : FetchFn) (c : ClientCfg) :
    ∀ pres1 pre pres2 acc,
      (∀ q ∈ pres1, probeOk fetchFn c q = false) →
      probeOk fetchFn c pre = true →
      (detectGo fetchFn c (pres1 ++ pre :: pres2) acc).1 = .ok (makeBaseUrl c pre) := by
  intro pres1
  induction pres1 with
  | nil =>
    intro pre pres2 acc _ hpre
    simp [detectGo, hpre]
  | cons q rest ih =>
    intro pre pres2 acc hfail hpre
    have hq : probeOk fetchFn c q = false := hfail q (by simp)
    simp only [List.cons_append, detectGo, hq]
    exact ih pre pres2 _ (fun x hx => hfail x (by simp [hx])) hpre

theorem detectGo_all_fail (fetchFn : FetchFn) (c : ClientCfg) :
    ∀ pres acc, (∀ q ∈ pres, probeOk fetchFn c q = false) →
      (detectGo fetchFn c pres acc).1 = .error .baseUrlNotDetected := by
  intro pres
  induction pres with
  | nil => intro acc _; simp [detectGo]
  | cons q rest ih =>
    intro acc hfail
    have hq : probeOk fetchFn c q = false := hfail q (by simp)
    simp only [detectGo, hq]
    exact ih _ (fun x hx => hfail x (by simp [hx]))

/-- C5: `detectBaseUrl` probes `GET <candidate>/app/status` for the
candidates `http://host:port + prefixValue + apiBasePath` in configured
order, returns the first candidate whose probe has a successful status,
and fails with `BaseUrlNotDetected` when every probe fails. (The source
normalizes candidates by stripping trailing slashes; for candidates
without one — every real configuration — the returned value is the plain
concatenation.) -/
theorem c5_detect_base_url (fetchFn : FetchFn) (c : ClientCfg) :
    (∀ pres1 pre pres2,
      c.prefixes = pres1 ++ pre :: pres2 →
      (∀ q ∈ pres1, probeOk fetchFn c q = false) →
      probeOk fetchFn c pre = true →
      strEnds (rawBaseUrl c pre) "/" = false →
      (detectBaseUrl fetchFn c).1 = .ok (rawBaseUrl c pre)) ∧
    ((∀ q ∈ c.prefixes, probeOk fetchFn c q = false) →
      (detectBaseUrl fetchFn c).1 = .error .baseUrlNotDetected) := by
  constructor
  · intro pres1 pre pres2 hsplit hfail hpre hslash
    unfold detectBaseUrl
    rw [hsplit]
    have h := detectGo_first_success fetchFn c pres1 pre pres2 [] hfail hpre
    rw [h, makeBaseUrl, stripTrailingSlashes_id _ hslash]
  · intro hfail
    unfold detectBaseUrl
    exact detectGo_all_fail fetchFn c c.prefixes [] hfail

/-- The client of the detection example: default host, port, base path,
and the prefix list `["", "/stellina/http"]`, nothing cached. -/
def detectClient : ClientCfg := ⟨"10.0.0.1", 8082, "/v1", ["", "/stellina/http"], none⟩

/-- A probe layer succeeding only for URLs that mention
`/stellina/http`. -/
def stellinaOnlyFetch : FetchFn := fun args =>
  if strContains args.url.href "/stellina/http" then some ⟨200, "OK", "", "", []⟩
  else some ⟨404, "Not Found", "", "", []⟩

/-- Witness for C5: with prefixes `["", "/stellina/http"]` and a probe
succeeding only for `/stellina/http`, detection returns the
`/stellina/http` candidate, not the empty-prefix one. -/
theorem c5_detect_base_url_witness :
    (detectBaseUrl stellinaOnlyFetch detectClient).1 =
      .ok "http://10.0.0.1:8082/stellina/http/v1" :=
  (c5_detect_base_url stellinaOnlyFetch detectClient).1 [""] "/stellina/http" []
    rfl (by decide) (by decide) (by decide)

/-! ## Claim C6 -/

/-- C6: `callOperation` on an operation id absent from the catalog fails
with `UnknownOperation` and performs no fetch at all (empty trace); on a
present id it is exactly `request` applied to the catalog entry's method
and path. -/
theorem c6_call_operation_dispatch (fetchFn : FetchFn) (c : ClientCfg)
    (routes : List RouteDefinition) (opId : String) (o : RequestOptions) :
    (mapGet routes opId = none →
      callOperation fetchFn c routes opId o = (.error (.unknownOperation opId), [])) ∧
    (∀ route, mapGet routes opId = some route →
      callOperation fetchFn c routes opId o = request fetchFn c route.method route.path o) := by
  constructor
  · intro h
    simp [callOperation, h]
  · intro route h
    simp [callOperation, h]

/-- The one-entry catalog of the dispatch example. -/
def exRoutes : List RouteDefinition := [⟨"getStatus", "GET", "/app/status"⟩]

/-- A fetch layer that rejects every call (any network activity would
surface as a `networkFailure`, never as `UnknownOperation`). -/
def downFetch : FetchFn := fun _ => none

/-- Witness for C6: `doesNotExist` fails with `UnknownOperation` and an
empty fetch trace; `getStatus` delegates to `request` with `GET
/app/status`. -/
theorem c6_call_operation_dispatch_witness :
    callOperation downFetch exClient exRoutes "doesNotExist" emptyReqOptions =
      (.error (.unknownOperation "doesNotExist"), []) ∧
    callOperation downFetch exClient exRoutes "getStatus" emptyReqOptions =
      request downFetch exClient "GET" "/app/status" emptyReqOptions :=
  ⟨(c6_call_operation_dispatch downFetch exClient exRoutes "doesNotExist"
      emptyReqOptions).1 rfl,
   (c6_call_operation_dispatch downFetch exClient exRoutes "getStatus"
      emptyReqOptions).2 ⟨"getStatus", "GET", "/app/status"⟩ rfl⟩

/-! ## Claim C7 -/

/-- C7 (amended): when the response has a non-success status and its body
decodes (always, for non-`application/json` content types; for
`application/json` content types, when the body parses as JSON), `request`
fails with `HttpError` carrying the numeric status, status text and body
excerpt. (When an `application/json` body fails to parse, `request`
instead fails with the `JSON.parse` error, which carries no status.) -/
theorem c7_http_error_carries_status (fetchFn : FetchFn) (c : ClientCfg)
    (method path : String) (o : RequestOptions) (base : String) (resp : Response)
    (payload : Payload)
    (hbase : (resolveBase fetchFn c).1 = .ok base)
    (hfetch : fetchFn (mainFetchArgs base method path o) = some resp)
    (hdecode : decodePayload resp = .ok payload)
    (hstatus : respOk resp = false) :
    (request fetchFn c method path o).1 =
      .error (.httpError resp.status resp.statusText (payloadExcerpt payload)) := by
  unfold request
  rcases hres : resolveBase fetchFn c with ⟨resE, tr⟩
  rw [hres] at hbase
  simp only at hbase
  subst hbase
  simp [hfetch, hdecode, hstatus]

/-- A 400 response with a json content type whose body is not valid
JSON. -/
def badJsonResp : Response := ⟨400, "Bad Request", "application/json", "\x7b", []⟩

/-- A fetch layer constantly answering `badJsonResp`. -/
def badJsonFetch : FetchFn := fun _ => some badJsonResp

/-- Counterexample to C7 as stated: a status-400 `application/json`
response whose body `"\x7b"` is not valid JSON makes `request` fail —
but with the `JSON.parse` error from `response.json()`, not with an
`HttpError` carrying the status. -/
theorem c7_http_error_carries_status_counterexample :
    respOk badJsonResp = false ∧
    isErrorOutcome (request badJsonFetch exClient "GET" "/app/status" emptyReqOptions).1 = true ∧
    isHttpErrorOutcome (request badJsonFetch exClient "GET" "/app/status" emptyReqOptions).1 = false := by
  refine ⟨by decide, by rfl, by rfl⟩

/-- A 400 plain-text response. -/
def badTextResp : Response := ⟨400, "Bad Request", "text/plain", "nope", []⟩

/-- A fetch layer constantly answering `badTextResp`. -/
def badTextFetch : FetchFn := fun _ => some badTextResp

/-- Witness for C7 (amended): a status-400 plain-text response makes
`request` fail with `HttpError` carrying 400. -/
theorem c7_http_error_carries_status_witness :
    (request badTextFetch exClient "GET" "/app/status" emptyReqOptions).1 =
      .error (.httpError 400 "Bad Request" "nope") :=
  c7_http_error_carries_status badTextFetch exClient "GET" "/app/status"
    emptyReqOptions "http://10.0.0.1:8082/v1" badTextResp (.text "nope")
    rfl rfl rfl (by decide)

/-! ## Claim C8 -/

theorem foldl_spAppend (k : String) :
    ∀ (elems : List JsVal) (qs : List (String × String)),
      elems.foldl (fun acc it => spAppend acc k (jsToString it)) qs =
        qs ++ elems.map (fun it => (k, jsToString it)) := by
  intro elems
  induction elems with
  | nil => intro qs; simp
  | cons e rest ih =>
    intro qs
    rw [List.foldl_cons, ih]
    simp [spAppend]

/-- C8: an array-valued `params` entry serializes as one query parameter
per array element under the same name — appended verbatim, neither
comma-joined nor JSON-encoded — and the example
`params = (a: 1, b: [x, y])` yields the three entries
`a=1`, `b=x`, `b=y`. -/
theorem c8_array_query_params (qs : List (String × String)) (k : String)
    (elems : List JsVal) (rest : List (String × JsVal)) :
    buildQuery qs ((k, JsVal.vArr elems) :: rest) =
      buildQuery (qs ++ elems.map (fun it => (k, jsToString it))) rest ∧
    buildQuery [] [("a", JsVal.vNum 1), ("b", JsVal.vArr [JsVal.vStr "x", JsVal.vStr "y"])] =
      [("a", "1"), ("b", "x"), ("b", "y")] := by
  constructor
  · simp only [buildQuery]
    rw [foldl_spAppend]
  · rfl

/-! ## Claim C9 -/

/-- C9: `sendCommand` emits, under the single fixed `"message"` event, the
array `[name]` when no payload is supplied (`undefined`) and
`[name, payload]` when one is, passing the acknowledgement callback
through exactly when one is supplied. -/
theorem c9_send_command_encoding (κ : Type) (command : String) (payload : JsVal)
    (cb : κ) :
    (sendCommand κ command .vUndef (some cb) =
      .withAck "message" [JsVal.vStr command] cb) ∧
    (sendCommand κ command .vUndef none =
      .withoutAck "message" [JsVal.vStr command]) ∧
    (¬ payload = .vUndef →
      sendCommand κ command payload (some cb) =
        .withAck "message" [JsVal.vStr command, payload] cb ∧
      sendCommand κ command payload none =
        .withoutAck "message" [JsVal.vStr command, payload]) := by
  refine ⟨rfl, rfl, ?_⟩
  intro h
  cases payload with
  | vUndef => exact absurd rfl h
  | vNull => exact ⟨rfl, rfl⟩
  | vBool b => exact ⟨rfl, rfl⟩
  | vNum n => exact ⟨rfl, rfl⟩
  | vStr s => exact ⟨rfl, rfl⟩
  | vArr l => exact ⟨rfl, rfl⟩

/-- Witness for C9: a supplied payload and a supplied callback produce the
two-element array under `"message"` with the callback attached. -/
theorem c9_send_command_encoding_witness :
    ¬ (JsVal.vStr "now" = JsVal.vUndef) ∧
    sendCommand Nat "park" (JsVal.vStr "now") (some 7) =
      .withAck "message" [JsVal.vStr "park", JsVal.vStr "now"] 7 :=
  ⟨fun h => JsVal.noConfusion h,
   ((c9_send_command_encoding Nat "park" (JsVal.vStr "now") 7).2.2
      (fun h => JsVal.noConfusion h)).1⟩

/-! ## Claim C10 -/

theorem mem_keys_spDeleteKey {k k' : String} {qs : List (String × String)}
    (h : k ∈ (spDeleteKey k' qs).map Prod.fst) : k ∈ qs.map Prod.fst := by
  rcases List.mem_map.mp h with ⟨e, he, rfl⟩
  exact List.mem_map.mpr ⟨e, (List.mem_filter.mp he).1, rfl⟩

theorem spSet_keys (k' v : String) :
    ∀ (qs : List (String × String)) (k : String), ¬ k = k' →
      k ∉ qs.map Prod.fst → k ∉ (spSet qs k' v).map Prod.fst := by
  intro qs
  induction qs with
  | nil =>
    intro k hne _
    simp [spSet, hne]
  | cons a rest ih =>
    intro k hne hmem
    obtain ⟨a1, a2⟩ := a
    simp only [List.map_cons, List.mem_cons] at hmem
    push_neg at hmem
    obtain ⟨hka, hkrest⟩ := hmem
    simp only [spSet]
    by_cases ha : a1 = k'
    · rw [if_pos ha]
      intro hcon
      simp only [List.map_cons, List.mem_cons] at hcon
      rcases hcon with h1 | h2
      · exact hne h1
      · exact hkrest (mem_keys_spDeleteKey h2)
    · rw [if_neg ha]
      intro hcon
      simp only [List.map_cons, List.mem_cons] at hcon
      rcases hcon with h1 | h2
      · exact hka h1
      · exact ih k hne hkrest h2

theorem buildQuery_keys (k : String) :
    ∀ (ps : List (String × JsVal)) (qs : List (String × String)),
      k ∉ qs.map Prod.fst →
      (∀ e ∈ ps, e.1 = k → e.2.isNullOrUndef = true) →
      k ∉ (buildQuery qs ps).map Prod.fst := by
  intro ps
  induction ps with
  | nil =>
    intro qs hqs _
    simpa [buildQuery] using hqs
  | cons e rest ih =>
    intro qs hqs hps
    obtain ⟨k', v⟩ := e
    have hrest : ∀ x ∈ rest, x.1 = k → x.2.isNullOrUndef = true :=
      fun x hx hxk => hps x (by simp [hx]) hxk
    cases v with
    | vArr elems =>
      have hk' : ¬ k' = k := by
        intro h
        have := hps (k', .vArr elems) (by simp) h
        simp [JsVal.isNullOrUndef] at this
      simp only [buildQuery]
      apply ih _ _ hrest
      rw [foldl_spAppend]
      intro hcon
      simp only [List.map_append, List.mem_append] at hcon
      rcases hcon with h1 | h2
      · exact hqs h1
      · simp only [List.map_map, List.mem_map, Function.comp] at h2
        rcases h2 with ⟨it, _, hit⟩
        exact hk' hit
    | vUndef =>
      simp only [buildQuery]
      exact ih qs hqs hrest
    | vNull =>
      simp only [buildQuery]
      exact ih qs hqs hrest
    | vBool b =>
      have hk' : ¬ k = k' := by
        intro h
        have := hps (k', .vBool b) (by simp) h.symm
        simp [JsVal.isNullOrUndef] at this
      simp only [buildQuery]
      exact ih _ (spSet_keys k' _ qs k hk' hqs) hrest
    | vNum n =>
      have hk' : ¬ k = k' := by
        intro h
        have := hps (k', .vNum n) (by simp) h.symm
        simp [JsVal.isNullOrUndef] at this
      simp only [buildQuery]
      exact ih _ (spSet_keys k' _ qs k hk' hqs) hrest
    | vStr s =>
      have hk' : ¬ k = k' := by
        intro h
        have := hps (k', .vStr s) (by simp) h.symm
        simp [JsVal.isNullOrUndef] at this
      simp only [buildQuery]
      exact ih _ (spSet_keys k' _ qs k hk' hqs) hrest

/-- C10: a `null`/`undefined` non-array entry contributes nothing to the
query (and, when no other entry shares its key, the key never appears in
the output at all); *every* other non-array value — string, number or
boolean alike — is `String(…)`-converted and `set`; `buildQuery` is a
total function — serialization never fails. -/
theorem c10_null_undefined_params :
    (∀ qs k rest, buildQuery qs ((k, JsVal.vNull) :: rest) = buildQuery qs rest) ∧
    (∀ qs k rest, buildQuery qs ((k, JsVal.vUndef) :: rest) = buildQuery qs rest) ∧
    (∀ qs k v rest, v.isNullOrUndef = false → v.isArr = false →
      buildQuery qs ((k, v) :: rest) = buildQuery (spSet qs k (jsToString v)) rest) ∧
    (∀ qs ps k, k ∉ qs.map Prod.fst →
      (∀ e ∈ ps, e.1 = k → e.2.isNullOrUndef = true) →
      k ∉ (buildQuery qs ps).map Prod.fst) := by
  refine ⟨?_, ?_, ?_, ?_⟩
  · intro qs k rest; simp [buildQuery]
  · intro qs k rest; simp [buildQuery]
  · intro qs k v rest hnu harr
    cases v with
    | vUndef => simp [JsVal.isNullOrUndef] at hnu
    | vNull => simp [JsVal.isNullOrUndef] at hnu
    | vArr l => simp [JsVal.isArr] at harr
    | vBool b => simp [buildQuery]
    | vNum n => simp [buildQuery]
    | vStr s => simp [buildQuery]
  · intro qs ps k hqs hps
    exact buildQuery_keys k ps qs hqs hps

/-- Witness for C10: the boolean entry `(debug: true)` — neither null nor
an array — is `String(…)`-converted and `set`, and serializing
`(a: 1, b: null)` from an empty query yields no `b` entry at all. -/
theorem c10_null_undefined_params_witness :
    ((JsVal.vBool true).isNullOrUndef = false ∧ (JsVal.vBool true).isArr = false ∧
      buildQuery [] [("debug", JsVal.vBool true)] =
        buildQuery (spSet [] "debug" (jsToString (JsVal.vBool true))) []) ∧
    (("b" ∉ (([] : List (String × String)).map Prod.fst)) ∧
      (∀ e ∈ [("a", JsVal.vNum 1), ("b", JsVal.vNull)],
        e.1 = "b" → e.2.isNullOrUndef = true) ∧
      "b" ∉ (buildQuery [] [("a", JsVal.vNum 1), ("b", JsVal.vNull)]).map Prod.fst) :=
  ⟨⟨rfl, rfl,
    c10_null_undefined_params.2.2.1 [] "debug" (JsVal.vBool true) [] rfl rfl⟩,
   ⟨by simp, by decide,
    c10_null_undefined_params.2.2.2 [] [("a", JsVal.vNum 1), ("b", JsVal.vNull)] "b"
      (by simp) (by decide)⟩⟩

end Vaonis
